import Mathlib

/-!
A shallow embedding of the scoring-and-ranking core of the house-rating
dashboard (src/src/Dashboard.tsx), with the listing record type from the
`House` interface.  JavaScript numbers are modelled as rationals (`ℚ`),
strings as `String`, booleans as `Bool`.  The JavaScript idiom `x || d`
on a numeric field (any falsy value replaced by the default) is modelled
by `numOr`, with `0` standing for every falsy numeric value.  The stable
`Array.prototype.sort` is modelled by `List.mergeSort` on the comparator's
non-positive test.  `String.prototype.toLowerCase` is modelled by
`Char.toLower` over the character list (ASCII case folding).
-/

namespace HouseRater

/-- The `House` record (src/unnamed/part_000 plus the `sold` and
`calculated_score` fields used by `Dashboard.tsx`). -/
structure House where
  id : String
  address : String
  city : String
  price : ℚ
  bedrooms : ℚ
  bathrooms : ℚ
  size : ℚ
  style : String
  year_built : ℚ
  garage_spaces : ℚ
  walk_in_closet : Bool
  kitchen_island : Bool
  yard_maintenance : Bool
  hoa_fee : ℚ
  distance : String
  sold : Bool
  calculated_score : ℚ
  thumbnail_url : String
  deriving DecidableEq, Repr

/-- The nine preference weights (the `weights` state object in
`Dashboard.tsx`, lines 20-30). -/
structure Weights where
  garageSpaces : ℚ
  walkInCloset : ℚ
  kitchenIsland : ℚ
  distance : ℚ
  yardMaintenance : ℚ
  hoaFees : ℚ
  size : ℚ
  yearBuilt : ℚ
  price : ℚ
  deriving DecidableEq, Repr

/-- JavaScript `x || d` on a numeric field: a falsy value (modelled by `0`)
is replaced by the default `d`. -/
def numOr (x d : ℚ) : ℚ := if x = 0 then d else x

/-- The maximal run of digits at the front of a character list
(the tail of a regex `\d+` match). -/
def takeDigitRun : List Char → List Char
  | [] => []
  | c :: cs => if c.isDigit then c :: takeDigitRun cs else []

/-- The first run of digits found anywhere in a character list, modelling
the JavaScript `str.match(/(\d+)/)` capture (`none` when there is no
digit). -/
def firstDigitRun : List Char → Option (List Char)
  | [] => none
  | c :: cs => if c.isDigit then some (c :: takeDigitRun cs) else firstDigitRun cs

/-- Decimal value of a digit string, modelling `parseInt` on a `\d+`
match. -/
def digitsVal (cs : List Char) : ℕ :=
  cs.foldl (fun acc c => acc * 10 + (c.toNat - 48)) 0

/-- `extractMinutes s d` models the shared distance-parsing idiom of
`Dashboard.tsx` (lines 174-176 and 238-241): the first run of digits in
`s` read as an integer, or the default `d` when `s` contains no digit. -/
def extractMinutes (s : String) (d : ℕ) : ℕ :=
  match firstDigitRun s.toList with
  | some run => digitsVal run
  | none => d

/-- Garage sub-score (lines 161-162): 100 for two or more spaces, 50 for
exactly one, else 0; a falsy count defaults to 0. -/
def garageScore (h : House) : ℚ :=
  if numOr h.garage_spaces 0 ≥ 2 then 100
  else if numOr h.garage_spaces 0 = 1 then 50 else 0

/-- Distance sub-score (lines 174-177): `max(0, 100 − minutes × 2)` with
the parse default of 50 minutes. -/
def distanceScoreOf (h : House) : ℚ :=
  max 0 (100 - (extractMinutes h.distance 50 : ℚ) * 2)

/-- HOA sub-score (lines 185-186): 100 when the (defaulted) fee is 0, else
`max(0, 100 − fee / 5)`. -/
def hoaScore (h : House) : ℚ :=
  if numOr h.hoa_fee 0 = 0 then 100 else max 0 (100 - numOr h.hoa_fee 0 / 5)

/-- Size sub-score (lines 190-191): `clamp(((size − 1000) / 2500) × 100, 0, 100)`
with a falsy size defaulting to 1500. -/
def sizeScore (h : House) : ℚ :=
  min 100 (max 0 ((numOr h.size 1500 - 1000) / 2500 * 100))

/-- Year-built sub-score (lines 195-199): `clamp(((year − 1920) / 105) × 100, 0, 100)`
with a falsy year defaulting to 1950. -/
def yearScore (h : House) : ℚ :=
  min 100 (max 0 ((numOr h.year_built 1950 - 1920) / 105 * 100))

/-- Price sub-score (lines 203-207): `clamp(100 − ((price − 400000) / 300000) × 100, 0, 100)`
with a falsy price defaulting to 600000. -/
def priceScore (h : House) : ℚ :=
  min 100 (max 0 (100 - (numOr h.price 600000 - 400000) / 300000 * 100))

/-- The `score` accumulator of `calculateScore` after all nine additions
(lines 157-209), in source order. -/
def scoreSum (w : Weights) (h : House) : ℚ :=
  garageScore h / 100 * w.garageSpaces
  + (if h.walk_in_closet then w.walkInCloset else 0)
  + (if h.kitchen_island then w.kitchenIsland else 0)
  + distanceScoreOf h / 100 * w.distance
  + (if h.yard_maintenance then 0 else w.yardMaintenance)
  + hoaScore h / 100 * w.hoaFees
  + sizeScore h / 100 * w.size
  + yearScore h / 100 * w.yearBuilt
  + priceScore h / 100 * w.price

/-- The `maxScore` accumulator of `calculateScore` (sum of all nine
weights). -/
def totalWeight (w : Weights) : ℚ :=
  w.garageSpaces + w.walkInCloset + w.kitchenIsland + w.distance
  + w.yardMaintenance + w.hoaFees + w.size + w.yearBuilt + w.price

/-- `calculateScore` (Dashboard.tsx lines 157-212): the aggregate score,
`score / maxScore × 100` when `maxScore > 0`, else 0. -/
def calculateScore (w : Weights) (h : House) : ℚ :=
  if totalWeight w > 0 then scoreSum w h / totalWeight w * 100 else 0

/-- ASCII lower-casing of a string into its character list, modelling
`toLowerCase()`. -/
def lowerChars (s : String) : List Char := s.toList.map Char.toLower

/-- `startsWithChars s pat`: `pat` is an initial segment of `s`. -/
def startsWithChars : List Char → List Char → Bool
  | _, [] => true
  | [], _ :: _ => false
  | a :: as, b :: bs => a == b && startsWithChars as bs

/-- `containsChars s pat`: `pat` occurs as a contiguous segment of `s`,
modelling `String.prototype.includes`. -/
def containsChars : List Char → List Char → Bool
  | [], pat => pat.isEmpty
  | a :: as, pat => startsWithChars (a :: as) pat || containsChars as pat

/-- The filter predicate of the pipeline (lines 220-228): keep everything
when the search term is falsy (empty), else require the lower-cased term
to occur in the lower-cased address, city, or style. -/
def houseMatches (searchTerm : String) (h : House) : Bool :=
  if searchTerm = "" then true
  else
    containsChars (lowerChars h.address) (lowerChars searchTerm)
    || containsChars (lowerChars h.city) (lowerChars searchTerm)
    || containsChars (lowerChars h.style) (lowerChars searchTerm)

/-- The filter stage of `scoredHouses`. -/
def filterStage (searchTerm : String) (l : List House) : List House :=
  l.filter (houseMatches searchTerm)

/-- The inline `getDistance` of the distance comparator (lines 238-241):
same digit extraction as the scorer, but defaulting to 99. -/
def getDistance (h : House) : ℕ := extractMinutes h.distance 99

/-- The sort comparator of `scoredHouses` (lines 229-245), keyed by the
`sortBy` string; any unknown key compares everything equal. -/
def houseCmp (sortBy : String) (a b : House) : ℚ :=
  if sortBy = "sold" then
    if a.sold = b.sold then 0 else if a.sold then 1 else -1
  else if sortBy = "score" then b.calculated_score - a.calculated_score
  else if sortBy = "price" then a.price - b.price
  else if sortBy = "distance" then (getDistance a : ℚ) - (getDistance b : ℚ)
  else 0

/-- The boolean "may come first" relation induced by the comparator, used
to model the stable `Array.prototype.sort`. -/
def houseLe (sortBy : String) (a b : House) : Bool :=
  decide (houseCmp sortBy a b ≤ 0)

/-- The sort stage of `scoredHouses`: a stable sort by the comparator. -/
def sortStage (sortBy : String) (l : List House) : List House :=
  l.mergeSort (houseLe sortBy)

/-- The map stage of `scoredHouses` (lines 215-219): attach the computed
score to each house. -/
def mapScore (w : Weights) (l : List House) : List House :=
  l.map (fun h => { h with calculated_score := calculateScore w h })

/-- The full `scoredHouses` pipeline (lines 214-247): score, filter,
stable-sort. -/
def scoredHouses (w : Weights) (sortBy searchTerm : String)
    (houses : List House) : List House :=
  sortStage sortBy (filterStage searchTerm (mapScore w houses))

/-- The budget badge predicate (line 763): `(house.price || 0) > budgetLimit`. -/
def overBudget (budgetLimit : ℚ) (h : House) : Bool :=
  decide (numOr h.price 0 > budgetLimit)

/-- The rendered list: each pipeline output paired with its budget badge,
the only place `budgetLimit` is consumed. -/
def renderedHouses (w : Weights) (sortBy searchTerm : String)
    (budgetLimit : ℚ) (houses : List House) : List (House × Bool) :=
  (scoredHouses w sortBy searchTerm houses).map (fun h => (h, overBudget budgetLimit h))

/-! ### Spec-side definitions (for refinement comparison)

These follow the wording of the design document (§4.1 table and §4.2):
`clamp(x, lo, hi)`, the nine sub-score rules, the weighted contributions
(binary features contributing the full weight or none), and the linear
aggregate `(Σ contributions / Σ weights) × 100`. -/

/-- `clamp(x, lo, hi)` as used in the spec's sub-score table. -/
def specClamp (x lo hi : ℚ) : ℚ := min hi (max lo x)

/-- Spec §4.1 garage rule: 100 if ≥2, 50 if =1, else 0 (missing → 0). -/
def specGarageSub (h : House) : ℚ :=
  if numOr h.garage_spaces 0 ≥ 2 then 100
  else if numOr h.garage_spaces 0 = 1 then 50 else 0

/-- Spec §4.1 distance rule: first digit run anywhere, default 50,
`max(0, 100 − 2 × minutes)`. -/
def specDistanceSub (h : House) : ℚ :=
  max 0 (100 - (extractMinutes h.distance 50 : ℚ) * 2)

/-- Spec §4.1 HOA rule: 100 if fee = 0, else `max(0, 100 − fee/5)`
(missing → 0). -/
def specHoaSub (h : House) : ℚ :=
  if numOr h.hoa_fee 0 = 0 then 100 else max 0 (100 - numOr h.hoa_fee 0 / 5)

/-- Spec §4.1 size rule: `clamp(((size − 1000) / 2500) × 100, 0, 100)`
(missing → 1500). -/
def specSizeSub (h : House) : ℚ :=
  specClamp ((numOr h.size 1500 - 1000) / 2500 * 100) 0 100

/-- Spec §4.1 year rule: `clamp(((year − 1920) / 105) × 100, 0, 100)`
(missing → 1950). -/
def specYearSub (h : House) : ℚ :=
  specClamp ((numOr h.year_built 1950 - 1920) / 105 * 100) 0 100

/-- Spec §4.1 price rule: `clamp(100 − ((price − 400000) / 300000) × 100, 0, 100)`
(missing → 600000). -/
def specPriceSub (h : House) : ℚ :=
  specClamp (100 - (numOr h.price 600000 - 400000) / 300000 * 100) 0 100

/-- Spec §4.2 weighted contributions: `(sub-score/100) × weight`, with the
binary features contributing the full weight or zero directly. -/
def specContribSum (w : Weights) (h : House) : ℚ :=
  specGarageSub h / 100 * w.garageSpaces
  + (if h.walk_in_closet then w.walkInCloset else 0)
  + (if h.kitchen_island then w.kitchenIsland else 0)
  + specDistanceSub h / 100 * w.distance
  + (if h.yard_maintenance then 0 else w.yardMaintenance)
  + specHoaSub h / 100 * w.hoaFees
  + specSizeSub h / 100 * w.size
  + specYearSub h / 100 * w.yearBuilt
  + specPriceSub h / 100 * w.price

/-- Spec §4.2 linear aggregate: `(Σ contributions / Σ weights) × 100`. -/
def specLinearScore (w : Weights) (h : House) : ℚ :=
  specContribSum w h / totalWeight w * 100

/-- All nine weights are nonnegative. -/
def NonnegWeights (w : Weights) : Prop :=
  0 ≤ w.garageSpaces ∧ 0 ≤ w.walkInCloset ∧ 0 ≤ w.kitchenIsland
  ∧ 0 ≤ w.distance ∧ 0 ≤ w.yardMaintenance ∧ 0 ≤ w.hoaFees
  ∧ 0 ≤ w.size ∧ 0 ≤ w.yearBuilt ∧ 0 ≤ w.price

/-! ### Concrete instances used by the claims -/

/-- A neutral listing: the `emptyHouse` template of the dashboard. -/
def baseHouse : House :=
  { id := "h0", address := "", city := "", price := 0, bedrooms := 0,
    bathrooms := 0, size := 0, style := "", year_built := 0,
    garage_spaces := 0, walk_in_closet := false, kitchen_island := false,
    yard_maintenance := false, hoa_fee := 0, distance := "", sold := false,
    calculated_score := 0, thumbnail_url := "" }

/-- The dashboard's initial weight configuration (lines 20-30); also the
weight configuration of the spec's concrete scenario. -/
def defaultWeights : Weights :=
  { garageSpaces := 9, walkInCloset := 8, kitchenIsland := 8, distance := 9,
    yardMaintenance := 8, hoaFees := 6, size := 4, yearBuilt := 2, price := 2 }

/-- The listing of the spec's concrete scenario (§8). -/
def scenarioHouse : House :=
  { baseHouse with
    garage_spaces := 2, walk_in_closet := true,
    kitchen_island := true, distance := "15 min", yard_maintenance := false,
    hoa_fee := 0, size := 2000, year_built := 2010, price := 450000 }

/-- A listing with a negative HOA fee. -/
def negHoaHouse : House :=
  { baseHouse with
    hoa_fee := -100 }

/-- A weight configuration giving all weight to the HOA fee. -/
def hoaOnlyWeights : Weights :=
  { garageSpaces := 0, walkInCloset := 0, kitchenIsland := 0, distance := 0,
    yardMaintenance := 0, hoaFees := 1, size := 0, yearBuilt := 0, price := 0 }

/-- A weight configuration giving all weight to distance. -/
def distOnlyWeights : Weights :=
  { garageSpaces := 0, walkInCloset := 0, kitchenIsland := 0, distance := 1,
    yardMaintenance := 0, hoaFees := 0, size := 0, yearBuilt := 0, price := 0 }

/-- The all-zero weight configuration. -/
def zeroWeights : Weights :=
  { garageSpaces := 0, walkInCloset := 0, kitchenIsland := 0, distance := 0,
    yardMaintenance := 0, hoaFees := 0, size := 0, yearBuilt := 0, price := 0 }

/-- All nine weights equal to −1 (total −9, nonzero but negative). -/
def negWeights : Weights :=
  { garageSpaces := -1, walkInCloset := -1, kitchenIsland := -1,
    distance := -1, yardMaintenance := -1, hoaFees := -1, size := -1,
    yearBuilt := -1, price := -1 }

/-- A listing on which every sub-score is 100. -/
def topHouse : House :=
  { baseHouse with
    garage_spaces := 2, walk_in_closet := true,
    kitchen_island := true, distance := "0 min", yard_maintenance := false,
    hoa_fee := 0, size := 3500, year_built := 2025, price := 400000 }

/-! ### Sub-score bounds -/

lemma numOr_zero_nonneg {x : ℚ} (hx : 0 ≤ x) : 0 ≤ numOr x 0 := by
  unfold numOr; split <;> simp [hx]

lemma garageScore_nonneg (h : House) : 0 ≤ garageScore h := by
  unfold garageScore; split_ifs <;> norm_num

lemma garageScore_le (h : House) : garageScore h ≤ 100 := by
  unfold garageScore; split_ifs <;> norm_num

lemma distanceScoreOf_nonneg (h : House) : 0 ≤ distanceScoreOf h :=
  le_max_left 0 _

lemma distanceScoreOf_le (h : House) : distanceScoreOf h ≤ 100 := by
  unfold distanceScoreOf
  refine max_le (by norm_num) ?_
  have : (0:ℚ) ≤ (extractMinutes h.distance 50 : ℚ) * 2 := by positivity
  linarith

lemma hoaScore_nonneg (h : House) : 0 ≤ hoaScore h := by
  unfold hoaScore; split_ifs with hz
  · norm_num
  · exact le_max_left 0 _

lemma hoaScore_le (h : House) (hfee : 0 ≤ h.hoa_fee) : hoaScore h ≤ 100 := by
  unfold hoaScore; split_ifs with hz
  · norm_num
  · refine max_le (by norm_num) ?_
    have h0 : 0 ≤ numOr h.hoa_fee 0 := numOr_zero_nonneg hfee
    linarith

lemma sizeScore_nonneg (h : House) : 0 ≤ sizeScore h :=
  le_min (by norm_num) (le_max_left 0 _)

lemma sizeScore_le (h : House) : sizeScore h ≤ 100 := min_le_left _ _

lemma yearScore_nonneg (h : House) : 0 ≤ yearScore h :=
  le_min (by norm_num) (le_max_left 0 _)

lemma yearScore_le (h : House) : yearScore h ≤ 100 := min_le_left _ _

lemma priceScore_nonneg (h : House) : 0 ≤ priceScore h :=
  le_min (by norm_num) (le_max_left 0 _)

lemma priceScore_le (h : House) : priceScore h ≤ 100 := min_le_left _ _

/-- A weighted term `sub/100 * wt` is at most `wt` when `0 ≤ wt` and
`sub ≤ 100`, and nonnegative when also `0 ≤ sub`. -/
lemma weighted_term_le {sub wt : ℚ} (hwt : 0 ≤ wt) (hs : sub ≤ 100) :
    sub / 100 * wt ≤ wt := by
  have h1 : sub / 100 ≤ 1 := by
    rw [div_le_one (by norm_num : (0:ℚ) < 100)]; exact hs
  calc sub / 100 * wt ≤ 1 * wt := mul_le_mul_of_nonneg_right h1 hwt
    _ = wt := one_mul wt

lemma weighted_term_nonneg {sub wt : ℚ} (hwt : 0 ≤ wt) (hs : 0 ≤ sub) :
    0 ≤ sub / 100 * wt :=
  mul_nonneg (div_nonneg hs (by norm_num)) hwt

lemma scoreSum_nonneg (w : Weights) (h : House) (hw : NonnegWeights w) :
    0 ≤ scoreSum w h := by
  obtain ⟨h1, h2, h3, h4, h5, h6, h7, h8, h9⟩ := hw
  unfold scoreSum
  have t1 := weighted_term_nonneg h1 (garageScore_nonneg h)
  have t2 : (0:ℚ) ≤ if h.walk_in_closet then w.walkInCloset else 0 := by
    split <;> simp [h2]
  have t3 : (0:ℚ) ≤ if h.kitchen_island then w.kitchenIsland else 0 := by
    split <;> simp [h3]
  have t4 := weighted_term_nonneg h4 (distanceScoreOf_nonneg h)
  have t5 : (0:ℚ) ≤ if h.yard_maintenance then 0 else w.yardMaintenance := by
    split <;> simp [h5]
  have t6 := weighted_term_nonneg h6 (hoaScore_nonneg h)
  have t7 := weighted_term_nonneg h7 (sizeScore_nonneg h)
  have t8 := weighted_term_nonneg h8 (yearScore_nonneg h)
  have t9 := weighted_term_nonneg h9 (priceScore_nonneg h)
  linarith

lemma scoreSum_le_totalWeight (w : Weights) (h : House)
    (hw : NonnegWeights w) (hfee : 0 ≤ h.hoa_fee) :
    scoreSum w h ≤ totalWeight w := by
  obtain ⟨h1, h2, h3, h4, h5, h6, h7, h8, h9⟩ := hw
  unfold scoreSum totalWeight
  have t1 := weighted_term_le h1 (garageScore_le h)
  have t2 : (if h.walk_in_closet then w.walkInCloset else 0) ≤ w.walkInCloset := by
    split <;> simp [h2]
  have t3 : (if h.kitchen_island then w.kitchenIsland else 0) ≤ w.kitchenIsland := by
    split <;> simp [h3]
  have t4 := weighted_term_le h4 (distanceScoreOf_le h)
  have t5 : (if h.yard_maintenance then 0 else w.yardMaintenance) ≤ w.yardMaintenance := by
    split <;> simp [h5]
  have t6 := weighted_term_le h6 (hoaScore_le h hfee)
  have t7 := weighted_term_le h7 (sizeScore_le h)
  have t8 := weighted_term_le h8 (yearScore_le h)
  have t9 := weighted_term_le h9 (priceScore_le h)
  linarith

/-- Spec §4.3 wording: the (lower-cased) term occurs in the (lower-cased)
field — "the term (case-insensitive) is a substring". -/
def caseInsensitiveSub (term field : String) : Bool :=
  containsChars (lowerChars field) (lowerChars term)

/-- Spec §4.3 wording: the term matches the address, city, or style. -/
def specSearchMatch (t : String) (h : House) : Bool :=
  caseInsensitiveSub t h.address || caseInsensitiveSub t h.city
  || caseInsensitiveSub t h.style

/-- A listing whose three searchable fields contain no whitespace. -/
def plainHouse : House :=
  { baseHouse with
    address := "Main", city := "Aville", style := "ranch" }

/-! ### Digit-run parsing lemmas -/

lemma takeDigitRun_cons (c : Char) (cs : List Char) :
    takeDigitRun (c :: cs)
      = if c.isDigit then c :: takeDigitRun cs else [] := rfl

lemma firstDigitRun_cons (c : Char) (cs : List Char) :
    firstDigitRun (c :: cs)
      = if c.isDigit then some (c :: takeDigitRun cs)
        else firstDigitRun cs := rfl

lemma firstDigitRun_eq_none {cs : List Char}
    (h : ∀ c ∈ cs, ¬ c.isDigit) : firstDigitRun cs = none := by
  induction cs with
  | nil => rfl
  | cons c cs ih =>
    rw [firstDigitRun_cons, if_neg (h c (by simp))]
    exact ih (fun x hx => h x (by simp [hx]))

lemma extractMinutes_no_digit {s : String} (d : ℕ)
    (h : ∀ c ∈ s.toList, ¬ c.isDigit) : extractMinutes s d = d := by
  unfold extractMinutes
  rw [firstDigitRun_eq_none h]

lemma firstDigitRun_append_no_digit {u rest : List Char}
    (hu : ∀ c ∈ u, ¬ c.isDigit) :
    firstDigitRun (u ++ rest) = firstDigitRun rest := by
  induction u with
  | nil => rfl
  | cons c cs ih =>
    rw [List.cons_append, firstDigitRun_cons, if_neg (hu c (by simp))]
    exact ih (fun x hx => hu x (by simp [hx]))

lemma takeDigitRun_all_digits {v w : List Char}
    (hv : ∀ c ∈ v, c.isDigit) (hw : ∀ c ∈ w.take 1, ¬ c.isDigit) :
    takeDigitRun (v ++ w) = v := by
  induction v with
  | nil =>
    cases w with
    | nil => rfl
    | cons c cs =>
      rw [List.nil_append, takeDigitRun_cons, if_neg (hw c (by simp))]
  | cons c cs ih =>
    rw [List.cons_append, takeDigitRun_cons, if_pos (hv c (by simp))]
    rw [ih (fun x hx => hv x (by simp [hx]))]

lemma firstDigitRun_found {u v w : List Char}
    (hu : ∀ c ∈ u, ¬ c.isDigit) (hv0 : v ≠ [])
    (hv : ∀ c ∈ v, c.isDigit) (hw : ∀ c ∈ w.take 1, ¬ c.isDigit) :
    firstDigitRun (u ++ v ++ w) = some v := by
  rw [List.append_assoc, firstDigitRun_append_no_digit hu]
  cases v with
  | nil => exact absurd rfl hv0
  | cons c cs =>
    rw [List.cons_append, firstDigitRun_cons, if_pos (hv c (by simp))]
    rw [takeDigitRun_all_digits (fun x hx => hv x (by simp [hx])) hw]

/-! ### Claim theorems -/

/-- C1 (counterexample): the claim "for every listing and every weight
configuration the aggregate score lies in [0,100]" fails: with all weight
on the HOA fee and a listing whose HOA fee is −100, `calculateScore`
returns 120, which is not ≤ 100. -/
theorem score_leaves_unit_interval_at_negative_hoa :
    calculateScore hoaOnlyWeights negHoaHouse = 120
    ∧ ¬ calculateScore hoaOnlyWeights negHoaHouse ≤ 100 := by
  have hd : extractMinutes "" 50 = 50 := rfl
  constructor <;>
    norm_num [calculateScore, scoreSum, totalWeight, garageScore,
      distanceScoreOf, hoaScore, sizeScore, yearScore, priceScore, numOr,
      hoaOnlyWeights, negHoaHouse, baseHouse, hd]

/-- C1 (amended): for every weight configuration with all nine weights
nonnegative and every listing with a nonnegative HOA fee, the aggregate
score returned by `calculateScore` lies in the closed interval [0,100]. -/
theorem score_in_range_of_nonneg (w : Weights) (h : House)
    (hw : NonnegWeights w) (hfee : 0 ≤ h.hoa_fee) :
    0 ≤ calculateScore w h ∧ calculateScore w h ≤ 100 := by
  unfold calculateScore
  split_ifs with hpos
  · have hnn := scoreSum_nonneg w h hw
    have hle := scoreSum_le_totalWeight w h hw hfee
    constructor
    · positivity
    · have h1 : scoreSum w h / totalWeight w ≤ 1 := by
        rw [div_le_one hpos]; exact hle
      calc scoreSum w h / totalWeight w * 100 ≤ 1 * 100 :=
            mul_le_mul_of_nonneg_right h1 (by norm_num)
        _ = 100 := one_mul 100
  · norm_num

/-- Witness for the amended C1 at the spec's concrete scenario. -/
theorem score_in_range_of_nonneg_witness :
    NonnegWeights defaultWeights ∧ 0 ≤ scenarioHouse.hoa_fee
    ∧ (0 ≤ calculateScore defaultWeights scenarioHouse
       ∧ calculateScore defaultWeights scenarioHouse ≤ 100) :=
  ⟨by constructor <;> norm_num [NonnegWeights, defaultWeights],
   by norm_num [scenarioHouse, baseHouse],
   score_in_range_of_nonneg defaultWeights scenarioHouse
     (by constructor <;> norm_num [NonnegWeights, defaultWeights])
     (by norm_num [scenarioHouse, baseHouse])⟩

/-- C2: whenever the nine weights sum to exactly 0, `calculateScore`
returns the defined value 0 for every listing. -/
theorem score_zero_of_zero_total (w : Weights) (h : House)
    (hw : totalWeight w = 0) : calculateScore w h = 0 := by
  unfold calculateScore
  rw [hw]
  norm_num

/-- Witness for C2 at the all-zero weight configuration. -/
theorem score_zero_of_zero_total_witness :
    totalWeight zeroWeights = 0 ∧ calculateScore zeroWeights baseHouse = 0 :=
  ⟨by norm_num [totalWeight, zeroWeights],
   score_zero_of_zero_total zeroWeights baseHouse
     (by norm_num [totalWeight, zeroWeights])⟩

/-- C3 (counterexample): the claim that for any nonzero total weight the
score equals the linear formula `(Σ contributions / Σ weights) × 100`
fails when the total is negative: with all nine weights −1 (total −9) on
a listing with all sub-scores 100, the formula gives 100 but
`calculateScore` returns 0. -/
theorem linear_formula_fails_at_negative_total :
    totalWeight negWeights = -9
    ∧ calculateScore negWeights topHouse = 0
    ∧ specLinearScore negWeights topHouse = 100
    ∧ calculateScore negWeights topHouse ≠ specLinearScore negWeights topHouse := by
  have hd : extractMinutes "0 min" 50 = 0 := rfl
  refine ⟨by norm_num [totalWeight, negWeights], ?_, ?_, ?_⟩ <;>
    norm_num [calculateScore, specLinearScore, scoreSum, specContribSum,
      totalWeight, garageScore, specGarageSub, distanceScoreOf,
      specDistanceSub, hoaScore, specHoaSub, sizeScore, specSizeSub,
      yearScore, specYearSub, priceScore, specPriceSub, specClamp, numOr,
      negWeights, topHouse, baseHouse, hd]

/-- C3 (amended): whenever the total weight is positive, `calculateScore`
equals the spec's linear formula `(Σ contributions / Σ weights) × 100`
(with the same formula for out-of-range weights); whenever the total is
≤ 0 — in particular for a negative nonzero total — it returns 0 instead. -/
theorem score_matches_linear_formula :
    (∀ (w : Weights) (h : House), 0 < totalWeight w →
      calculateScore w h = specLinearScore w h)
    ∧ (∀ (w : Weights) (h : House), totalWeight w ≤ 0 →
      calculateScore w h = 0) := by
  constructor
  · intro w h hpos
    unfold calculateScore specLinearScore
    rw [if_pos hpos]
    rfl
  · intro w h hle
    unfold calculateScore
    rw [if_neg (not_lt.mpr hle)]

/-- Witness for the amended C3 at the default weights. -/
theorem score_matches_linear_formula_witness :
    (0 < totalWeight defaultWeights
      ∧ calculateScore defaultWeights baseHouse
        = specLinearScore defaultWeights baseHouse)
    ∧ (totalWeight negWeights ≤ 0
      ∧ calculateScore negWeights baseHouse = 0) :=
  ⟨⟨by norm_num [totalWeight, defaultWeights],
    score_matches_linear_formula.1 defaultWeights baseHouse
      (by norm_num [totalWeight, defaultWeights])⟩,
   ⟨by norm_num [totalWeight, negWeights],
    score_matches_linear_formula.2 negWeights baseHouse
      (by norm_num [totalWeight, negWeights])⟩⟩

/-- C8: on the spec's concrete scenario (default weights, total 56, on the
scenario listing) the computed score is the exact rational 52795/588,
which is within rounding distance of 89.8. -/
theorem scenario_score_approx :
    calculateScore defaultWeights scenarioHouse = 52795 / 588
    ∧ |calculateScore defaultWeights scenarioHouse - 449/5| < 1/20 := by
  have hd : extractMinutes "15 min" 50 = 15 := rfl
  have hval : calculateScore defaultWeights scenarioHouse = 52795 / 588 := by
    norm_num [calculateScore, scoreSum, totalWeight, garageScore,
      distanceScoreOf, hoaScore, sizeScore, yearScore, priceScore, numOr,
      defaultWeights, scenarioHouse, baseHouse, hd]
  refine ⟨hval, ?_⟩
  rw [hval]
  rw [abs_sub_lt_iff]
  norm_num

/-- C10: on a listing with HOA fee −100 the HOA sub-score is
`100 − fee/5 = 120 > 100` (the HOA rule has no upper clamp), so with the
default positive HOA weight 6 the attribute's contribution `120/100 × 6`
exceeds the weight itself. -/
theorem hoa_subscore_unclamped_above :
    negHoaHouse.hoa_fee = -100
    ∧ hoaScore negHoaHouse = 100 - negHoaHouse.hoa_fee / 5
    ∧ 100 < hoaScore negHoaHouse
    ∧ defaultWeights.hoaFees
        < hoaScore negHoaHouse / 100 * defaultWeights.hoaFees := by
  refine ⟨?_, ?_, ?_, ?_⟩ <;>
    norm_num [hoaScore, numOr, negHoaHouse, baseHouse, defaultWeights]

/-- C4 (counterexample): the claim "a whitespace-only term (empty after
trimming) retains all listings" fails: the term consisting of a single
space is whitespace-only, yet the filter stage drops a listing whose
address, city and style contain no space. -/
theorem whitespace_term_filters_out :
    (" " : String) ≠ ""
    ∧ (" " : String).toList.all Char.isWhitespace = true
    ∧ filterStage " " [plainHouse] = []
    ∧ filterStage " " [plainHouse] ≠ [plainHouse] := by
  refine ⟨by decide, by decide, by decide, by decide⟩

/-- C4 (amended): the filter stage retains all listings exactly when the
term is the empty string; for every other term — whitespace-only terms
included — it retains exactly the listings where the term is a
case-insensitive substring of the address, city, or style. -/
theorem filter_empty_or_substring :
    (∀ l : List House, filterStage "" l = l)
    ∧ (∀ (t : String) (l : List House), t ≠ "" →
        filterStage t l = l.filter (specSearchMatch t)) := by
  constructor
  · intro l
    simp [filterStage, houseMatches]
  · intro t l ht
    have hfun : houseMatches t = specSearchMatch t := by
      funext h
      simp [houseMatches, if_neg ht, specSearchMatch, caseInsensitiveSub]
    rw [filterStage, hfun]

/-- Witness for the amended C4 on a one-element collection. -/
theorem filter_empty_or_substring_witness :
    filterStage "" [plainHouse] = [plainHouse]
    ∧ (("ain" : String) ≠ ""
       ∧ filterStage "ain" [plainHouse]
          = [plainHouse].filter (specSearchMatch "ain")) :=
  ⟨filter_empty_or_substring.1 [plainHouse],
   by decide,
   filter_empty_or_substring.2 "ain" [plainHouse] (by decide)⟩

/-- C5: a listing whose distance text contains no digit is given distance
99 by the sort comparator's extraction but 50 by the scoring rule's
extraction; the two defaults differ, and any listing whose parsed
distance is below 99 is ordered strictly before the digit-free one by the
distance comparator. -/
theorem distance_defaults_differ (h h' : House)
    (hnd : ∀ c ∈ h.distance.toList, ¬ c.isDigit) :
    getDistance h = 99
    ∧ extractMinutes h.distance 50 = 50
    ∧ (99 : ℕ) ≠ 50
    ∧ (getDistance h' < 99 → houseCmp "distance" h' h < 0) := by
  refine ⟨extractMinutes_no_digit 99 hnd, extractMinutes_no_digit 50 hnd,
    by norm_num, ?_⟩
  intro hlt
  have h99 : getDistance h = 99 := extractMinutes_no_digit 99 hnd
  have hcmp : houseCmp "distance" h' h
      = (getDistance h' : ℚ) - (getDistance h : ℚ) := by
    simp [houseCmp]
  rw [hcmp, h99]
  have hq : (getDistance h' : ℚ) < 99 := by exact_mod_cast hlt
  push_cast
  linarith

/-- Witness for C5: the empty distance text against the scenario listing
(parsed distance 15). -/
theorem distance_defaults_differ_witness :
    (∀ c ∈ baseHouse.distance.toList, ¬ c.isDigit)
    ∧ getDistance baseHouse = 99
    ∧ extractMinutes baseHouse.distance 50 = 50
    ∧ houseCmp "distance" scenarioHouse baseHouse < 0 := by
  have key := distance_defaults_differ baseHouse scenarioHouse (by decide)
  exact ⟨by decide, key.1, key.2.1, key.2.2.2 (by decide)⟩

/-- C6: the distance sub-score used in scoring equals
`max(0, 100 − 2 × minutes)` (witnessed through `calculateScore` with all
weight on distance), where `minutes` is the first run of digits found
anywhere in the distance text, and 50 when the text contains no digits;
the computation is a total function. -/
theorem distance_subscore_formula :
    (∀ h : House, calculateScore distOnlyWeights h
        = max 0 (100 - 2 * (extractMinutes h.distance 50 : ℚ)))
    ∧ (∀ u v w : List Char, (∀ c ∈ u, ¬ c.isDigit) → v ≠ []
        → (∀ c ∈ v, c.isDigit) → (∀ c ∈ w.take 1, ¬ c.isDigit)
        → extractMinutes (String.mk (u ++ v ++ w)) 50 = digitsVal v)
    ∧ (∀ s : String, (∀ c ∈ s.toList, ¬ c.isDigit) →
        extractMinutes s 50 = 50) := by
  refine ⟨?_, ?_, fun s hs => extractMinutes_no_digit 50 hs⟩
  · intro h
    have hw : totalWeight distOnlyWeights = 1 := by
      norm_num [totalWeight, distOnlyWeights]
    have hcancel : distanceScoreOf h / 100 * 100 = distanceScoreOf h :=
      div_mul_cancel₀ _ (by norm_num)
    have hsum : scoreSum distOnlyWeights h = distanceScoreOf h / 100 := by
      simp [scoreSum, distOnlyWeights]
    unfold calculateScore
    rw [hw, if_pos (by norm_num : (0:ℚ) < 1), hsum, div_one, hcancel]
    unfold distanceScoreOf
    congr 1
    ring
  · intro u v w hu hv0 hv hw
    unfold extractMinutes
    have : (String.mk (u ++ v ++ w)).toList = u ++ v ++ w := rfl
    rw [this, firstDigitRun_found hu hv0 hv hw]

/-- Witness for C6 on concrete inputs. -/
theorem distance_subscore_formula_witness :
    calculateScore distOnlyWeights scenarioHouse
      = max 0 (100 - 2 * (extractMinutes scenarioHouse.distance 50 : ℚ))
    ∧ extractMinutes (String.mk (['a'] ++ ['1', '2'] ++ [' '])) 50
        = digitsVal ['1', '2']
    ∧ extractMinutes "N/A" 50 = 50 :=
  ⟨distance_subscore_formula.1 scenarioHouse,
   distance_subscore_formula.2.1 ['a'] ['1', '2'] [' ']
     (by decide) (by decide) (by decide) (by decide),
   distance_subscore_formula.2.2 "N/A" (by decide)⟩

/-! ### Sort-order infrastructure -/

/-- The numeric sort key induced by each comparator branch: the comparator
`houseCmp k a b` is ≤ 0 (resp. = 0) exactly when `sortKeyVal k a` is
≤ (resp. =) `sortKeyVal k b`. -/
def sortKeyVal (sortBy : String) (h : House) : ℚ :=
  if sortBy = "sold" then (if h.sold then 1 else 0)
  else if sortBy = "score" then -h.calculated_score
  else if sortBy = "price" then h.price
  else if sortBy = "distance" then (getDistance h : ℚ)
  else 0

lemma houseCmp_le_iff (k : String) (a b : House) :
    houseCmp k a b ≤ 0 ↔ sortKeyVal k a ≤ sortKeyVal k b := by
  unfold houseCmp sortKeyVal
  by_cases h1 : k = "sold"
  · simp only [if_pos h1]
    cases ha : a.sold <;> cases hb : b.sold <;> norm_num [ha, hb]
  · by_cases h2 : k = "score"
    · simp only [if_neg h1, if_pos h2]
      constructor <;> intro <;> linarith
    · by_cases h3 : k = "price"
      · simp only [if_neg h1, if_neg h2, if_pos h3]
        exact sub_nonpos
      · by_cases h4 : k = "distance"
        · simp only [if_neg h1, if_neg h2, if_neg h3, if_pos h4]
          exact sub_nonpos
        · simp [if_neg h1, if_neg h2, if_neg h3, if_neg h4]

lemma houseCmp_zero_of_key_eq (k : String) (a b : House)
    (hkey : sortKeyVal k a = sortKeyVal k b) : houseCmp k a b = 0 := by
  unfold houseCmp
  unfold sortKeyVal at hkey
  by_cases h1 : k = "sold"
  · simp only [if_pos h1] at hkey ⊢
    cases ha : a.sold <;> cases hb : b.sold <;>
      simp only [ha, hb, if_pos, if_neg, Bool.false_eq_true, if_false,
        if_true] at hkey ⊢ <;> first | rfl | norm_num at hkey
  · by_cases h2 : k = "score"
    · simp only [if_neg h1, if_pos h2] at hkey ⊢
      linarith
    · by_cases h3 : k = "price"
      · simp only [if_neg h1, if_neg h2, if_pos h3] at hkey ⊢
        linarith
      · by_cases h4 : k = "distance"
        · simp only [if_neg h1, if_neg h2, if_neg h3, if_pos h4] at hkey ⊢
          linarith
        · simp only [if_neg h1, if_neg h2, if_neg h3, if_neg h4]

lemma houseLe_trans (k : String) (a b c : House)
    (hab : houseLe k a b = true) (hbc : houseLe k b c = true) :
    houseLe k a c = true := by
  simp only [houseLe, decide_eq_true_eq, houseCmp_le_iff] at hab hbc ⊢
  exact le_trans hab hbc

lemma houseLe_total (k : String) (a b : House) :
    (houseLe k a b || houseLe k b a) = true := by
  simp only [houseLe, Bool.or_eq_true, decide_eq_true_eq, houseCmp_le_iff]
  exact le_total _ _

/-- Stability of the modelled sort: a predicate all of whose members may
come first among themselves filters identically before and after the
sort. -/
lemma filter_sortStage_stable (k : String) (p : House → Bool)
    (l : List House)
    (hp : ∀ a b, p a = true → p b = true → houseLe k a b = true) :
    (sortStage k l).filter p = l.filter p := by
  have htrans : ∀ a b c : House, houseLe k a b = true →
      houseLe k b c = true → houseLe k a c = true :=
    fun a b c => houseLe_trans k a b c
  have htotal : ∀ a b : House, (houseLe k a b || houseLe k b a) = true :=
    fun a b => houseLe_total k a b
  have hpair : (l.filter p).Pairwise (fun a b => houseLe k a b = true) := by
    refine List.pairwise_of_forall_mem_list ?_
    intro a ha b hb
    exact hp a b (List.mem_filter.mp ha).2 (List.mem_filter.mp hb).2
  have h1 : (l.filter p).Sublist (sortStage k l) :=
    List.sublist_mergeSort htrans htotal hpair (List.filter_sublist l)
  have h2 : (l.filter p).Sublist ((sortStage k l).filter p) := by
    have := List.Sublist.filter p h1
    rwa [List.filter_filter, (by funext x; cases hx : p x <;> simp [hx] :
      (fun x => p x && p x) = p)] at this
  have hperm : ((sortStage k l).filter p).Perm (l.filter p) :=
    List.Perm.filter p (List.mergeSort_perm l (houseLe k))
  exact (List.Sublist.eq_of_length h2 (hperm.length_eq.symm)).symm

lemma houseLe_sold_of_both {a b : House} (hab : a.sold = b.sold) :
    houseLe "sold" a b = true := by
  simp [houseLe, houseCmp, hab]

lemma sold_of_houseLe_sold {a b : House} (ha : a.sold = true)
    (hle : houseLe "sold" a b = true) : b.sold = true := by
  by_contra hb
  have hb' : b.sold = false := Bool.eq_false_iff.mpr hb
  simp [houseLe, houseCmp, ha, hb'] at hle
  norm_num at hle

/-- A list that is pairwise ordered by the sold comparator is exactly its
unsold part followed by its sold part. -/
lemma pairwise_sold_partition (m : List House)
    (hp : m.Pairwise (fun a b => houseLe "sold" a b = true)) :
    m = m.filter (fun h => !h.sold) ++ m.filter (fun h => h.sold) := by
  induction m with
  | nil => rfl
  | cons a t ih =>
    rw [List.pairwise_cons] at hp
    obtain ⟨ha, ht⟩ := hp
    cases hsold : a.sold with
    | false =>
      simp only [List.filter_cons, hsold, Bool.not_false]
      simpa using congrArg (a :: ·) (ih ht)
    | true =>
      have hall : ∀ b ∈ t, b.sold = true :=
        fun b hb => sold_of_houseLe_sold hsold (ha b hb)
      have hnil : (a :: t).filter (fun h => !h.sold) = [] := by
        rw [List.filter_eq_nil_iff]
        intro x hx
        rcases List.mem_cons.mp hx with hxa | hxt
        · simp [hxa, hsold]
        · simp [hall x hxt]
      have hall2 : (a :: t).filter (fun h => h.sold) = a :: t := by
        rw [List.filter_eq_self]
        intro x hx
        rcases List.mem_cons.mp hx with hxa | hxt
        · simp [hxa, hsold]
        · simp [hall x hxt]
      rw [hnil, hall2, List.nil_append]

/-- A sold listing, for the sort witnesses. -/
def soldHouse : House :=
  { baseHouse with
    id := "h1", address := "Elm", sold := true }

/-- C7: sorting by the sold key puts every unsold listing before every
sold one while preserving relative order within each group (the sorted
list is exactly the unsold listings in original order followed by the
sold ones in original order); under any sort key the comparator returns 0
on listings with identical sort key, and the listings carrying any fixed
sort-key value appear in the same relative order after sorting as
before (stability). -/
theorem sold_sort_stable :
    (∀ l : List House, sortStage "sold" l
        = l.filter (fun h => !h.sold) ++ l.filter (fun h => h.sold))
    ∧ (∀ (k : String) (a b : House), sortKeyVal k a = sortKeyVal k b →
        houseCmp k a b = 0)
    ∧ (∀ (k : String) (v : ℚ) (l : List House),
        (sortStage k l).filter (fun h => decide (sortKeyVal k h = v))
          = l.filter (fun h => decide (sortKeyVal k h = v))) := by
  refine ⟨?_, houseCmp_zero_of_key_eq, ?_⟩
  · intro l
    have hsorted : (sortStage "sold" l).Pairwise
        (fun a b => houseLe "sold" a b = true) :=
      List.sorted_mergeSort (fun a b c => houseLe_trans "sold" a b c)
        (fun a b => houseLe_total "sold" a b) l
    have hpart := pairwise_sold_partition (sortStage "sold" l) hsorted
    have hunsold : (sortStage "sold" l).filter (fun h => !h.sold)
        = l.filter (fun h => !h.sold) := by
      refine filter_sortStage_stable "sold" _ l ?_
      intro a b ha hb
      have ha' : a.sold = false := by simpa using ha
      have hb' : b.sold = false := by simpa using hb
      exact houseLe_sold_of_both (ha'.trans hb'.symm)
    have hsold : (sortStage "sold" l).filter (fun h => h.sold)
        = l.filter (fun h => h.sold) := by
      refine filter_sortStage_stable "sold" _ l ?_
      intro a b ha hb
      exact houseLe_sold_of_both (ha.trans hb.symm)
    rw [hpart, hunsold, hsold]
  · intro k v l
    refine filter_sortStage_stable k _ l ?_
    intro a b ha hb
    have ha' := of_decide_eq_true ha
    have hb' := of_decide_eq_true hb
    simp only [houseLe, decide_eq_true_eq, houseCmp_le_iff]
    rw [ha', hb']

/-- Witness for C7 on a concrete two-element collection. -/
theorem sold_sort_stable_witness :
    sortStage "sold" [soldHouse, plainHouse]
      = [soldHouse, plainHouse].filter (fun h => !h.sold)
        ++ [soldHouse, plainHouse].filter (fun h => h.sold)
    ∧ (sortKeyVal "price" plainHouse = sortKeyVal "price" plainHouse
       ∧ houseCmp "price" plainHouse plainHouse = 0)
    ∧ (sortStage "score" [soldHouse, plainHouse]).filter
        (fun h => decide (sortKeyVal "score" h = 0))
        = [soldHouse, plainHouse].filter
            (fun h => decide (sortKeyVal "score" h = 0)) :=
  ⟨sold_sort_stable.1 [soldHouse, plainHouse],
   ⟨rfl, sold_sort_stable.2.1 "price" plainHouse plainHouse rfl⟩,
   sold_sort_stable.2.2 "score" 0 [soldHouse, plainHouse]⟩

/-- C9: the budget badge flags a listing exactly when its (falsy-defaulted)
price exceeds the budget limit; a missing price (0, the falsy default)
is never flagged for the nonnegative limits the slider produces; and the
budget limit never influences the scored, filtered, ordered output — two
renders differing only in the budget limit agree on it. -/
theorem budget_annotation_only :
    (∀ (h : House) (b : ℚ), overBudget b h = true ↔ b < numOr h.price 0)
    ∧ (∀ (h : House) (b : ℚ), 0 ≤ b → h.price = 0 → overBudget b h = false)
    ∧ (∀ (w : Weights) (k t : String) (hs : List House) (b₁ b₂ : ℚ),
        (renderedHouses w k t b₁ hs).map Prod.fst
          = (renderedHouses w k t b₂ hs).map Prod.fst) := by
  refine ⟨?_, ?_, ?_⟩
  · intro h b
    simp [overBudget]
  · intro h b hb hp
    simp only [overBudget, numOr, hp, if_pos]
    simpa using not_lt.mpr hb
  · intro w k t hs b₁ b₂
    simp [renderedHouses]

/-- Witness for C9 at the slider's default limit. -/
theorem budget_annotation_only_witness :
    (overBudget 600000 scenarioHouse = true
      ↔ (600000 : ℚ) < numOr scenarioHouse.price 0)
    ∧ ((0:ℚ) ≤ 600000 ∧ baseHouse.price = 0
       ∧ overBudget 600000 baseHouse = false)
    ∧ (renderedHouses defaultWeights "score" "" 400000 [plainHouse]).map Prod.fst
        = (renderedHouses defaultWeights "score" "" 700000 [plainHouse]).map Prod.fst :=
  ⟨budget_annotation_only.1 scenarioHouse 600000,
   ⟨by norm_num, rfl,
    budget_annotation_only.2.1 baseHouse 600000 (by norm_num) rfl⟩,
   budget_annotation_only.2.2 defaultWeights "score" "" [plainHouse]
     400000 700000⟩

end HouseRater
